import Mathlib

set_option maxHeartbeats 1000000

/-
Verification development for the LinalgExt operation verifiers and shape
algebra (compiler/src/iree/compiler/Dialect/LinalgExt/IR/LinalgExtOps.cpp).
Shapes are lists of int64 extents with the MLIR dynamic sentinel; element
types are a small closed inductive. Each C++ verifier is embedded as a
Bool-valued function mirroring its control flow, and the pack shape algebra
is embedded both in its int64 form (getPackOpResultTypeShape) and in its
symbolic OpFoldResult form (PackOp::getResultShape).
-/

namespace LinalgExt

/-- MLIR dynamic-extent sentinel: ShapedType.kDynamic is the minimum int64. -/
def kDynamic : Int := -(2 ^ 63)

/-- ShapedType.isDynamic on a single extent. -/
def isDynamic (d : Int) : Bool := d == kDynamic

/-- Element types visible to these verifiers: integers of a given bit width,
floats, index, and complex of an element type. -/
inductive Ty where
  | int (width : Nat)
  | f16
  | f32
  | f64
  | index
  | complex (elem : Ty)
deriving DecidableEq

/-- Source getComplexElementTypeOrSelf: strip one complex wrapper. -/
def getComplexElementTypeOrSelf : Ty → Ty
  | Ty.complex e => e
  | t => t

/-- Type.isIntOrFloat from MLIR: integer or float scalar. -/
def Ty.isIntOrFloat : Ty → Bool
  | Ty.int _ => true
  | Ty.f16 => true
  | Ty.f32 => true
  | Ty.f64 => true
  | _ => false

/-- Type.isInteger(width) from MLIR. -/
def Ty.isInteger (t : Ty) (w : Nat) : Bool := t == Ty.int w

/-- FloatType test (dyn_cast of FloatType succeeds). -/
def Ty.isFloat : Ty → Bool
  | Ty.f16 => true
  | Ty.f32 => true
  | Ty.f64 => true
  | _ => false

/-- mlir verifyCompatibleShape: equal rank and pointwise equal extents except
where either extent is dynamic. -/
def verifyCompatibleShape (a b : List Int) : Bool :=
  a.length == b.length &&
    (a.zip b).all (fun p => isDynamic p.1 || isDynamic p.2 || p.1 == p.2)

/-- Source isInvalid: a dimension position list is invalid when it is longer
than the rank, contains a duplicate, or contains an index outside of
the half-open range from 0 to rank. -/
def isInvalid (dimsPos : List Int) (rank : Int) : Bool :=
  decide ((dimsPos.length : Int) > rank) ||
  !(decide dimsPos.Nodup) ||
  dimsPos.any (fun d => decide (d < 0) || decide (d ≥ rank))

/-- Source isSmallerThan: every source extent is at most the limit extent,
with dynamic extents on either side passing. -/
def isSmallerThan (sourceShape limitShape : List Int) : Bool :=
  (sourceShape.zip limitShape).all (fun p =>
    isDynamic p.1 || isDynamic p.2 || decide (p.1 ≤ p.2))

/-- mlir ceilDiv from Support/MathExtras: ceiling division implemented with
the C++ truncating division (Int.tdiv). -/
def ceilDiv (lhs rhs : Int) : Int :=
  let x : Int := if 0 < rhs then -1 else 1
  if lhs ≠ 0 ∧ ((0 < lhs) ↔ (0 < rhs)) then (lhs + x).tdiv rhs + 1
  else -((-lhs).tdiv rhs)

/-- An OpFoldResult as used by the shape code: either a constant integer
attribute or an SSA value whose integer is only known at run time. -/
inductive OpFoldResult where
  | attr (v : Int)
  | value
deriving DecidableEq

/-- mlir getConstantIntValue: a constant only for attributes. -/
def getConstantIntValue : OpFoldResult → Option Int
  | OpFoldResult.attr v => some v
  | OpFoldResult.value => none

/-- mlir isConstantIntValue. -/
def isConstantIntValue (o : OpFoldResult) (v : Int) : Bool :=
  getConstantIntValue o == some v

/-- mlir dispatchIndexOpFoldResults per entry: an attribute keeps its
integer, an SSA value becomes the kDynamic sentinel. -/
def dynOf : OpFoldResult → Int
  | OpFoldResult.attr v => v
  | OpFoldResult.value => kDynamic

/-- Modelled from the spec: asShapeWithAnyValueAsDynamic (declared in the
LinalgExt utils, outside this file) turns symbolic dimensions into an int64
shape, mapping every SSA value to the dynamic sentinel. -/
def asShapeWithAnyValueAsDynamic (dims : List OpFoldResult) : List Int :=
  dims.map dynOf

/-- Modelled from the spec: applyPermutation, the LinalgExt utils interchange
with offset 0. Position i of the result takes the element at position
perm i of the input when i is below the permutation length, and keeps the
input element otherwise. -/
def interchange (elements : List α) (perm : List Int) : List α :=
  elements.enum.map (fun ia =>
    match perm[ia.1]? with
    | some p => (elements[p.toNat]?).getD ia.2
    | none => ia.2)

/-- One iteration of the getPackOpResultTypeShape loop over the enumerated
inner dimension positions: a dynamic source extent is kept, a dynamic tile
size makes the extent dynamic, and otherwise the extent becomes the tile
count by mlir ceilDiv. -/
def packStepInt (resultShape : List Int) (p : Int × Int) : List Int :=
  let d := p.1.toNat
  let cur := (resultShape[d]?).getD 0
  if isDynamic cur then resultShape
  else if isDynamic p.2 then resultShape.set d kDynamic
  else resultShape.set d (ceilDiv cur p.2)

/-- Source getPackOpResultTypeShape: replace each tiled extent by its tile
count, interchange by the outer permutation, then append the tile sizes. -/
def getPackOpResultTypeShape (sourceShape innerTileSizes : List Int)
    (innerDimsPos outerDimsPerm : List Int) : List Int :=
  let resultShape := (innerDimsPos.zip innerTileSizes).foldl packStepInt sourceShape
  interchange resultShape outerDimsPerm ++ innerTileSizes

/-- Source PackOp::getPackedType restricted to its shape content: the packed
shape of a source shape under the given tiling (the element type is passed
through unchanged by the source function). -/
def PackOp.getPackedType (sourceShape innerTileSizes : List Int)
    (innerDimsPos outerDimsPerm : List Int) : List Int :=
  getPackOpResultTypeShape sourceShape innerTileSizes innerDimsPos outerDimsPerm

/-- makeComposedFoldedAffineApply of the affine expression s0 ceildiv s1:
folds to a constant attribute (by mlir ceilDiv) when both operands are
constants, otherwise materializes an SSA value. -/
def affineCeilDiv : OpFoldResult → OpFoldResult → OpFoldResult
  | OpFoldResult.attr a, OpFoldResult.attr b => OpFoldResult.attr (ceilDiv a b)
  | _, _ => OpFoldResult.value

/-- One iteration of the PackOp::getResultShape loop: unconditionally
replace the tiled dimension by the folded ceildiv of it and the tile size. -/
def packStepOFR (resultDims : List OpFoldResult) (p : Int × OpFoldResult) :
    List OpFoldResult :=
  let d := p.1.toNat
  resultDims.set d (affineCeilDiv ((resultDims[d]?).getD OpFoldResult.value) p.2)

/-- Source PackOp::getResultShape (symbolic reification path): fold the
ceildiv over the tiled dimensions, interchange when the outer permutation is
nonempty, append the tile sizes, then fix positions up to SSA values exactly
where the int64 result type shape computed by getPackOpResultTypeShape is
dynamic. -/
def PackOp.getResultShape (sourceDims innerTileSizes : List OpFoldResult)
    (innerDimsPos outerDimsPerm : List Int) : List OpFoldResult :=
  let a := (innerDimsPos.zip innerTileSizes).foldl packStepOFR sourceDims
  let b := if outerDimsPerm.isEmpty then a else interchange a outerDimsPerm
  let c := b ++ innerTileSizes
  let resultTypeShape := getPackOpResultTypeShape
      (asShapeWithAnyValueAsDynamic sourceDims)
      (asShapeWithAnyValueAsDynamic innerTileSizes) innerDimsPos outerDimsPerm
  (c.zip resultTypeShape).map
    (fun p => if isDynamic p.2 then OpFoldResult.value else p.1)

/-- An operand as seen by the structural checks: a scalar of some element
type, or a shaped (tensor or buffer) value with a shape and element type. -/
inductive OperandKind where
  | scalar (t : Ty)
  | shaped (shape : List Int) (t : Ty)
deriving DecidableEq

/-- Source isScalar on an operand: not a shaped type. -/
def OperandKind.isScalar : OperandKind → Bool
  | OperandKind.scalar _ => true
  | _ => false

/-- Shape accessor of an operand (scalars have no dimensions). -/
def OperandKind.shape : OperandKind → List Int
  | OperandKind.scalar _ => []
  | OperandKind.shaped s _ => s

/-- Element type accessor of an operand. -/
def OperandKind.elemType : OperandKind → Ty
  | OperandKind.scalar t => t
  | OperandKind.shaped _ t => t

/-- Default operand used under list lookups that the verifiers only reach
after the corresponding arity check has passed. -/
def dfltOperand : OperandKind := OperandKind.shaped [] Ty.index

/-- Source hasZeros: some tile is the constant zero. -/
def hasZeros (tiles : List OpFoldResult) : Bool :=
  tiles.any (fun t => isConstantIntValue t 0)

/-- Lookup in the dim-to-tile DenseMap built by getDimAndTileMapping: the
map binds each inner dimension position to its tile, a later duplicate key
overwriting an earlier one. -/
def dimAndTileFind (innerDimsPos : List Int) (tiles : List OpFoldResult)
    (dim : Int) : Option OpFoldResult :=
  (innerDimsPos.zip tiles).foldl
    (fun acc p => if p.1 == dim then some p.2 else acc) none

/-- Source areNotFullTiles: some dimension has a static extent and a
constant tile size that does not divide it (C++ remainder is Int.tmod). -/
def areNotFullTiles (inputShape : List Int) (innerDimsPos : List Int)
    (tiles : List OpFoldResult) : Bool :=
  (List.range inputShape.length).any (fun dim =>
    let e := (inputShape[dim]?).getD 0
    if isDynamic e then false
    else
      match dimAndTileFind innerDimsPos tiles (dim : Int) with
      | some t =>
        match getConstantIntValue t with
        | some c => decide (e.tmod c ≠ 0)
        | none => false
      | none => false)

/-- The per-axis check of the trailing tile dimensions of the packed type
against the declared tiles: a dynamic tile requires a dynamic axis; a
constant tile accepts a dynamic axis or the equal constant. -/
def innerTileConsistent (p : Int × OpFoldResult) : Bool :=
  match getConstantIntValue p.2 with
  | none => isDynamic p.1
  | some c => if isDynamic p.1 then true else p.1 == c

/-- Source commonVerifierPackAndUnPackOp over the unpacked and packed
shapes, the dimension position lists, and the mixed tiles. -/
def commonVerifierPackAndUnPackOp (unpackedShape packedShape : List Int)
    (innerDimsPos outerDimsPerm : List Int)
    (mixedTiles : List OpFoldResult) : Bool :=
  let unpackedRank : Int := unpackedShape.length
  if hasZeros mixedTiles then false
  else if isInvalid innerDimsPos unpackedRank then false
  else if isInvalid outerDimsPerm unpackedRank then false
  else if mixedTiles.length ≠ innerDimsPos.length then false
  else if decide ((mixedTiles.length : Int) > unpackedRank) then false
  else if unpackedShape.length + mixedTiles.length ≠ packedShape.length then false
  else
  let expected := PackOp.getPackedType unpackedShape (mixedTiles.map dynOf)
      innerDimsPos outerDimsPerm
  if !isSmallerThan expected packedShape then false
  else if !(((packedShape.drop (packedShape.length - mixedTiles.length)).zip
      mixedTiles).all innerTileConsistent) then false
  else true

/-- PackOp: unpacked input, packed output, tiling attributes, and the
optional padding value (by the type it carries). The mixedTiles field is
the getMixedTiles view merging static and dynamic tile sizes. -/
structure PackOp where
  inputShape : List Int
  inputElemType : Ty
  outputShape : List Int
  outputElemType : Ty
  innerDimsPos : List Int
  mixedTiles : List OpFoldResult
  outerDimsPerm : List Int
  paddingValue : Option Ty
deriving DecidableEq

/-- Source PackOp::verify: the common verifier, then the full-tile guard
when no padding value is present, then the padding type check. -/
def PackOp.verify (op : PackOp) : Bool :=
  if !commonVerifierPackAndUnPackOp op.inputShape op.outputShape
      op.innerDimsPos op.outerDimsPerm op.mixedTiles then false
  else if op.paddingValue.isNone &&
      areNotFullTiles op.inputShape op.innerDimsPos op.mixedTiles then false
  else
    match op.paddingValue with
    | some t => t == op.inputElemType
    | none => true

/-- UnPackOp: packed input, unpacked output, tiling attributes. -/
structure UnPackOp where
  inputShape : List Int
  inputElemType : Ty
  outputShape : List Int
  outputElemType : Ty
  innerDimsPos : List Int
  mixedTiles : List OpFoldResult
  outerDimsPerm : List Int
deriving DecidableEq

/-- Source UnPackOp::verify: exactly the common verifier, with the output
as the unpacked side and the input as the packed side. -/
def UnPackOp.verify (op : UnPackOp) : Bool :=
  commonVerifierPackAndUnPackOp op.outputShape op.inputShape
    op.innerDimsPos op.outerDimsPerm op.mixedTiles

/-- ScatterOp: two inputs (indices, updates per the spec ordering), one
output (the original), the dimension map attribute, and the payload region
argument and yielded types. -/
structure ScatterOp where
  inputs : List OperandKind
  outputs : List OperandKind
  dimensionMap : List Int
  regionArgTypes : List Ty
  yieldedTypes : List Ty
deriving DecidableEq

/-- Modelled from the spec: the indices operand (the accessor is declared
in the op definition outside this file; the spec lists the inputs as
(indices, updates)). -/
def ScatterOp.getIndicesType (op : ScatterOp) : OperandKind :=
  (op.inputs[0]?).getD dfltOperand

/-- Modelled from the spec: the updates operand. -/
def ScatterOp.getUpdateType (op : ScatterOp) : OperandKind :=
  (op.inputs[1]?).getD dfltOperand

/-- The single output, the original value. -/
def ScatterOp.getOriginalType (op : ScatterOp) : OperandKind :=
  (op.outputs[0]?).getD dfltOperand

/-- Modelled from the spec: getIndexDepth, the number of indexed axes. The
accessor is declared in the op definition outside this file; the spec
states that the dimension map length equals the index depth. -/
def ScatterOp.getIndexDepth (op : ScatterOp) : Int :=
  op.dimensionMap.length

/-- The bound check shared by the two dimension loops of ScatterOp::verify:
fail when the original extent is static and the update extent exceeds it. -/
def scatterExceeds (original update : List Int) (p : Nat × Nat) : Bool :=
  let od := (original[p.1]?).getD 0
  let ud := (update[p.2]?).getD 0
  !isDynamic od && decide (ud > od)

/-- Source ScatterOp::verify. -/
def ScatterOp.verify (op : ScatterOp) : Bool :=
  if op.inputs.length ≠ 2 then false
  else if op.outputs.length ≠ 1 then false
  else
  let indicesType := op.getIndicesType
  if indicesType.shape.length ≠ 2 || !(indicesType.elemType.isInteger 32) then false
  else if isDynamic op.getIndexDepth then false
  else if (op.dimensionMap.length : Int) ≠ op.getIndexDepth then false
  else
  let originalType := op.getOriginalType
  if isInvalid op.dimensionMap (originalType.shape.length : Int) then false
  else
  let updateType := op.getUpdateType
  if updateType.shape.length < 1 then false
  else if ((indicesType.shape[0]?).getD 0) ≠ ((updateType.shape[0]?).getD 0) then false
  else if decide ((updateType.shape.length : Int) - 1 > (originalType.shape.length : Int)) then false
  else if decide ((originalType.shape.length : Int) >
      op.getIndexDepth + (updateType.shape.length : Int) - 1) then false
  else
  let originalRank := originalType.shape.length
  let updateRank := updateType.shape.length
  let indexDepth := op.dimensionMap.length
  let fullSliceDims := originalRank - indexDepth
  if ((List.range' indexDepth fullSliceDims).zip
      (List.range' (updateRank - fullSliceDims) fullSliceDims)).any
      (scatterExceeds originalType.shape updateType.shape) then false
  else
  let insertDims := originalRank + 1 - updateRank
  if ((List.range' insertDims (indexDepth - insertDims)).zip
      (List.range' 1 (updateRank - fullSliceDims - 1))).any
      (scatterExceeds originalType.shape updateType.shape) then false
  else if op.regionArgTypes.length ≠ 2 then false
  else
  let arg0 := (op.regionArgTypes[0]?).getD Ty.index
  let arg1 := (op.regionArgTypes[1]?).getD Ty.index
  if !(getComplexElementTypeOrSelf arg0).isIntOrFloat ||
     !(getComplexElementTypeOrSelf arg1).isIntOrFloat then false
  else if arg0 ≠ updateType.elemType then false
  else if arg1 ≠ originalType.elemType then false
  else if arg0 ≠ arg1 then false
  else if op.yieldedTypes.length ≠ 1 then false
  else if ((op.yieldedTypes[0]?).getD Ty.index) ≠ arg0 then false
  else true

/-- SortOp: a count of dps inputs (the verifier requires zero), the sort
dimension attribute, the output operands, and the payload region argument
and yielded types. -/
structure SortOp where
  numInputs : Nat
  dimension : Int
  outputs : List OperandKind
  regionArgTypes : List Ty
  yieldedTypes : List Ty
deriving DecidableEq

/-- Source SortOp::verify. The per-operand loop checks rank and exact shape
equality against operand 0 and the two comparator argument types. -/
def SortOp.verify (op : SortOp) : Bool :=
  if op.numInputs ≠ 0 then false
  else if op.outputs.length = 0 then false
  else if op.regionArgTypes.length ≠ 2 * op.outputs.length then false
  else
  let operand0 := (op.outputs[0]?).getD dfltOperand
  let rank : Int := operand0.shape.length
  if decide (op.dimension < 0) || decide (op.dimension ≥ rank) then false
  else
  let shape := operand0.shape
  if !((List.range op.outputs.length).all (fun index =>
      let operandType := (op.outputs[index]?).getD dfltOperand
      ((operandType.shape.length : Int) == rank) &&
      (operandType.shape == shape) &&
      (((op.regionArgTypes[2 * index]?).getD Ty.index) == operandType.elemType) &&
      (((op.regionArgTypes[2 * index + 1]?).getD Ty.index) == operandType.elemType)))
    then false
  else if op.yieldedTypes.length ≠ 1 then false
  else
    match (op.yieldedTypes[0]?).getD Ty.index with
    | Ty.int 1 => true
    | _ => false

/-- FftOp: the fft length and its dps inputs and outputs. The length
accessor is declared outside this file; modelled from the spec as the
length attribute of the op. -/
structure FftOp where
  fftLength : Int
  inputs : List OperandKind
  outputs : List OperandKind
deriving DecidableEq

/-- Source FftOp::verify: a dynamic length returns success immediately; a
static length must be a power of two; then the scalar stage input, the
optional coefficient pair, and exactly two outputs are required. -/
def FftOp.verify (op : FftOp) : Bool :=
  if isDynamic op.fftLength then true
  else if op.fftLength.land (op.fftLength - 1) ≠ 0 then false
  else if op.inputs.length = 0 ||
      !((op.inputs[0]?).getD dfltOperand).isScalar then false
  else if decide (op.inputs.length ≠ 1) &&
      (decide (op.inputs.length ≠ 3) ||
        ((op.inputs[1]?).getD dfltOperand).isScalar ||
        ((op.inputs[2]?).getD dfltOperand).isScalar) then false
  else if op.outputs.length ≠ 2 then false
  else true

/-- std::ceil of the float quotient of two int64 values, as the integer
ceiling (exact for the magnitudes handled here; the divisor is positive in
every call site). -/
def ceilFloatDiv (a b : Int) : Int := -((-a).fdiv b)

/-- WinogradInputTransformOp: input and output operands plus the attributes
output_tile_size, kernel_size and image_dimensions. -/
structure WinogradInputTransformOp where
  inputShape : List Int
  inputElemType : Ty
  outputShape : List Int
  outputElemType : Ty
  outputTileSize : Int
  kernelSize : Int
  imageDimensions : List Int
deriving DecidableEq

/-- Modelled from the spec: getInputTileSize, with the relation
outputTileSize = inputTileSize - kernelSize + 1 (the accessor is declared
in the op definition outside this file). -/
def WinogradInputTransformOp.getInputTileSize
    (op : WinogradInputTransformOp) : Int :=
  op.outputTileSize + op.kernelSize - 1

/-- Modelled from the spec: the channel-last layout has image dimensions
[1, 2] (the verifier accepts exactly [1, 2] or [2, 3]). -/
def WinogradInputTransformOp.isNhwc (op : WinogradInputTransformOp) : Bool :=
  op.imageDimensions == [1, 2]

/-- Modelled from the spec: the channel-first layout has image dimensions
[2, 3]. -/
def WinogradInputTransformOp.isNchw (op : WinogradInputTransformOp) : Bool :=
  op.imageDimensions == [2, 3]

/-- Modelled from the spec: the layout permutation applied to a rank-6
expected shape taking tile-tile-NCHW order to tile-tile-NHWC order. -/
def permuteTTNCHWtoTTNHWC (shape : List Int) : List Int :=
  match shape with
  | [t0, t1, n, c, h, w] => [t0, t1, n, h, w, c]
  | l => l

/-- The expected output shape loop of WinogradInputTransformOp::verify for
the full-rank case: start from outputRank copies of the input tile size,
pass dynamic and non-image extents through at offset numImageDims, and map
each static image extent e to ceil((e - kernelSize + 1) / outputTileSize). -/
def winogradInputExpectedShape (inputShape imageDimensions : List Int)
    (kernelSize outputTileSize inputTileSize : Int) (outputRank : Nat) :
    List Int :=
  (List.range inputShape.length).foldl (fun exp i =>
    let oi := i + imageDimensions.length
    let e := (inputShape[i]?).getD 0
    if isDynamic e then exp.set oi e
    else if !(imageDimensions.contains (i : Int)) then exp.set oi e
    else exp.set oi (ceilFloatDiv (e - kernelSize + 1) outputTileSize))
    (List.replicate outputRank inputTileSize)

/-- Source WinogradInputTransformOp::verify. -/
def WinogradInputTransformOp.verify (op : WinogradInputTransformOp) : Bool :=
  if op.outputElemType ≠ op.inputElemType then false
  else
  let inputRank := op.inputShape.length
  let outputRank := op.outputShape.length
  if inputRank ≠ 2 ∧ inputRank ≠ 4 then false
  else if inputRank = 2 then
    if outputRank ≠ 2 then false
    else
    let d0 := (op.inputShape[0]?).getD 0
    let d1 := (op.inputShape[1]?).getD 0
    if (!isDynamic d0 && decide (d0 > op.getInputTileSize)) ||
       (isDynamic d1 && decide (d1 > op.getInputTileSize)) then false
    else verifyCompatibleShape
      [op.getInputTileSize, op.getInputTileSize] op.outputShape
  else
    if outputRank ≠ inputRank + 2 then false
    else if op.imageDimensions.length ≠ 2 then false
    else if !op.isNchw && !op.isNhwc then false
    else
    let expected0 := winogradInputExpectedShape op.inputShape
        op.imageDimensions op.kernelSize op.outputTileSize
        op.getInputTileSize outputRank
    let expected := if op.isNchw then permuteTTNCHWtoTTNHWC expected0
        else expected0
    verifyCompatibleShape expected op.outputShape

/-- AttentionOp: four inputs (query, key, value, scale), one or three
outputs (output, and max and sum for the tiled variant), and the transpose
flag for the value operand. -/
structure AttentionOp where
  inputs : List OperandKind
  outputs : List OperandKind
  transposeV : Bool
deriving DecidableEq

def AttentionOp.getQueryType (op : AttentionOp) : OperandKind :=
  (op.inputs[0]?).getD dfltOperand

def AttentionOp.getKeyType (op : AttentionOp) : OperandKind :=
  (op.inputs[1]?).getD dfltOperand

def AttentionOp.getValueType (op : AttentionOp) : OperandKind :=
  (op.inputs[2]?).getD dfltOperand

def AttentionOp.getScale (op : AttentionOp) : OperandKind :=
  (op.inputs[3]?).getD dfltOperand

def AttentionOp.getOutputType (op : AttentionOp) : OperandKind :=
  (op.outputs[0]?).getD dfltOperand

def AttentionOp.getMaxType (op : AttentionOp) : OperandKind :=
  (op.outputs[1]?).getD dfltOperand

def AttentionOp.getSumType (op : AttentionOp) : OperandKind :=
  (op.outputs[2]?).getD dfltOperand

/-- The std::swap of the last two entries of the value shape when the
transpose flag is set. -/
def swapLastTwo (l : List Int) : List Int :=
  if 2 ≤ l.length then
    (l.set (l.length - 2) ((l[l.length - 1]?).getD 0)).set (l.length - 1)
      ((l[l.length - 2]?).getD 0)
  else l

/-- Source AttentionOp::verify. -/
def AttentionOp.verify (op : AttentionOp) : Bool :=
  if op.inputs.length ≠ 4 then false
  else if op.outputs.length ≠ 1 ∧ op.outputs.length ≠ 3 then false
  else
  let isTiled := op.outputs.length == 3
  let rankToCompareWith : Nat := if isTiled then 2 else 3
  if !((op.inputs.take 3).all (fun i => !i.isScalar)) then false
  else
  let query := op.getQueryType
  let key := op.getKeyType
  let value := op.getValueType
  let output := op.getOutputType
  if !(match op.getScale with
      | OperandKind.scalar t => t.isFloat
      | _ => false) then false
  else if query.shape.length ≠ rankToCompareWith then false
  else if key.shape.length ≠ rankToCompareWith then false
  else if value.shape.length ≠ rankToCompareWith then false
  else if output.shape.length ≠ rankToCompareWith then false
  else
  let valueShape := if op.transposeV then swapLastTwo value.shape
      else value.shape
  if !verifyCompatibleShape key.shape valueShape then false
  else if !verifyCompatibleShape query.shape output.shape then false
  else if !(query.elemType = key.elemType ∧ query.elemType = value.elemType ∧
      query.elemType = op.getScale.elemType) then false
  else if !isTiled then
    if output.elemType ≠ query.elemType then false
    else if ((key.shape[2]?).getD 0) ≠ ((query.shape[2]?).getD 0) then false
    else true
  else
    let maxType := op.getMaxType
    let sumType := op.getSumType
    if maxType.shape.length ≠ 1 then false
    else if sumType.shape.length ≠ 1 then false
    else if !(output.elemType = maxType.elemType ∧
        maxType.elemType = sumType.elemType) then false
    else if !verifyCompatibleShape maxType.shape sumType.shape then false
    else if ((maxType.shape[0]?).getD 0) ≠ ((query.shape[0]?).getD 0) then false
    else true

/-- Pack of an unpacked [10] by tile 3 into [4, 3], without padding. -/
def packNotDivisible : PackOp :=
  { inputShape := [10], inputElemType := Ty.f32, outputShape := [4, 3],
    outputElemType := Ty.f32, innerDimsPos := [0],
    mixedTiles := [OpFoldResult.attr 3], outerDimsPerm := [],
    paddingValue := none }

/-- The same pack with an f32 padding value supplied. -/
def packPadded : PackOp := { packNotDivisible with paddingValue := some Ty.f32 }

/-- Pack of [9] by constant tile 3 whose declared packed type has a dynamic
trailing tile axis. -/
def packDynamicTrailing : PackOp :=
  { inputShape := [9], inputElemType := Ty.f32,
    outputShape := [3, kDynamic], outputElemType := Ty.f32,
    innerDimsPos := [0], mixedTiles := [OpFoldResult.attr 3],
    outerDimsPerm := [], paddingValue := none }

/-- Pack of [9] by a dynamic tile size, with matching dynamic packed axes. -/
def packDynamicTile : PackOp :=
  { inputShape := [9], inputElemType := Ty.f32,
    outputShape := [5, kDynamic], outputElemType := Ty.f32,
    innerDimsPos := [0], mixedTiles := [OpFoldResult.value],
    outerDimsPerm := [], paddingValue := none }

/-- Scatter with indices [5, 2] of i32, updates [5, 4], original [8, 4],
dimension map [0], and a well-typed f32 payload region. -/
def scatterAccepted : ScatterOp :=
  { inputs := [OperandKind.shaped [5, 2] (Ty.int 32),
               OperandKind.shaped [5, 4] Ty.f32],
    outputs := [OperandKind.shaped [8, 4] Ty.f32],
    dimensionMap := [0], regionArgTypes := [Ty.f32, Ty.f32],
    yieldedTypes := [Ty.f32] }

/-- The same scatter with updates [5, 6] exceeding the original extent 4. -/
def scatterRejected : ScatterOp :=
  { scatterAccepted with
    inputs := [OperandKind.shaped [5, 2] (Ty.int 32),
               OperandKind.shaped [5, 6] Ty.f32] }

/-- Sort with two rank-1 f32 outputs whose shapes differ only at an axis
where one extent is dynamic, with a well-formed comparator region. -/
def sortDynMismatch : SortOp :=
  { numInputs := 0, dimension := 0,
    outputs := [OperandKind.shaped [kDynamic] Ty.f32,
                OperandKind.shaped [3] Ty.f32],
    regionArgTypes := [Ty.f32, Ty.f32, Ty.f32, Ty.f32],
    yieldedTypes := [Ty.int 1] }

/-- Sort with two outputs of the exact same shape. -/
def sortEqualShapes : SortOp :=
  { sortDynMismatch with
    outputs := [OperandKind.shaped [3] Ty.f32,
                OperandKind.shaped [3] Ty.f32] }

/-- FFT op with a dynamic length and no operands at all. -/
def fftDynamicDegenerate : FftOp :=
  { fftLength := kDynamic, inputs := [], outputs := [] }

/-- FFT op with static length 4, a scalar stage input, and two outputs. -/
def fftStaticGood : FftOp :=
  { fftLength := 4, inputs := [OperandKind.scalar Ty.index],
    outputs := [OperandKind.shaped [4] Ty.f32,
                OperandKind.shaped [4] Ty.f32] }

/-- Non-tiled attention with query, key, value all [2, 8, 16] of f32, an
f32 scalar scale, and output [2, 8, 16] of f32. -/
def attentionAccepted : AttentionOp :=
  { inputs := [OperandKind.shaped [2, 8, 16] Ty.f32,
               OperandKind.shaped [2, 8, 16] Ty.f32,
               OperandKind.shaped [2, 8, 16] Ty.f32,
               OperandKind.scalar Ty.f32],
    outputs := [OperandKind.shaped [2, 8, 16] Ty.f32],
    transposeV := false }

/-- Non-tiled attention with query head dimension 32 against key head
dimension 16. -/
def attentionHeadMismatch : AttentionOp :=
  { inputs := [OperandKind.shaped [2, 8, 32] Ty.f32,
               OperandKind.shaped [2, 8, 16] Ty.f32,
               OperandKind.shaped [2, 8, 16] Ty.f32,
               OperandKind.scalar Ty.f32],
    outputs := [OperandKind.shaped [2, 8, 32] Ty.f32],
    transposeV := false }

/-- Rank-2 Winograd input transform whose static dimension 1 extent 100
exceeds the input tile size 6. -/
def winogradDim1Oversize : WinogradInputTransformOp :=
  { inputShape := [4, 100], inputElemType := Ty.f32, outputShape := [6, 6],
    outputElemType := Ty.f32, outputTileSize := 4, kernelSize := 3,
    imageDimensions := [1, 2] }

/-- Rank-2 Winograd input transform whose static dimension 0 extent 7
exceeds the input tile size 6. -/
def winogradDim0Oversize : WinogradInputTransformOp :=
  { winogradDim1Oversize with inputShape := [7, 4] }

theorem kDynamic_neg : kDynamic < 0 := by norm_num [kDynamic]

theorem isDynamic_kDynamic : isDynamic kDynamic = true := by
  simp [isDynamic]

theorem eq_kDynamic_of_isDynamic {v : Int} (h : isDynamic v = true) :
    v = kDynamic := by
  simpa [isDynamic] using h

theorem isDynamic_eq_false_of_nonneg {v : Int} (hv : 0 ≤ v) :
    isDynamic v = false := by
  simp only [isDynamic, beq_eq_false_iff_ne, ne_eq]
  intro h
  have := kDynamic_neg
  omega

theorem ceilDiv_nonneg {a b : Int} (ha : 0 ≤ a) (hb : 0 < b) :
    0 ≤ ceilDiv a b := by
  rcases eq_or_lt_of_le ha with h0 | hpos
  · simp [ceilDiv, ← h0]
  · have hcond : a ≠ 0 ∧ ((0 < a) ↔ (0 < b)) :=
      ⟨ne_of_gt hpos, iff_of_true hpos hb⟩
    simp only [ceilDiv, if_pos hcond, if_pos hb]
    have : (0 : Int) ≤ (a + -1).tdiv b := Int.tdiv_nonneg (by omega) (le_of_lt hb)
    omega

theorem ceilDiv_eq_ceil {a b : Int} (ha : 0 ≤ a) (hb : 0 < b) :
    ceilDiv a b = ⌈(a : ℚ) / (b : ℚ)⌉ := by
  have hbq : (0 : ℚ) < (b : ℚ) := by exact_mod_cast hb
  rcases eq_or_lt_of_le ha with h0 | hpos
  · simp [ceilDiv, ← h0]
  · have hcond : a ≠ 0 ∧ ((0 < a) ↔ (0 < b)) :=
      ⟨ne_of_gt hpos, iff_of_true hpos hb⟩
    simp only [ceilDiv, if_pos hcond, if_pos hb]
    rw [show a + -1 = a - 1 by ring,
      Int.tdiv_eq_ediv (by omega) (le_of_lt hb)]
    symm
    rw [Int.ceil_eq_iff]
    have h1 : ((a - 1) / b) * b ≤ a - 1 := Int.ediv_mul_le _ (ne_of_gt hb)
    have h3 : a - 1 < ((a - 1) / b + 1) * b := Int.lt_ediv_add_one_mul_self _ hb
    constructor
    · push_cast
      rw [add_sub_cancel_right, lt_div_iff₀ hbq]
      exact_mod_cast (by omega : ((a - 1) / b) * b < a)
    · rw [div_le_iff₀ hbq]
      push_cast
      exact_mod_cast (by omega : a ≤ ((a - 1) / b + 1) * b)

theorem interchange_nil (l : List α) : interchange l [] = l := by
  simp [interchange]

/-- Claim C2: the tile-count computation of the pack shape algebra yields
dynamic when the extent or the tile size is dynamic, and otherwise the
ceiling of extent over tile size; the claimed concrete values included. -/
theorem C2_ceil_tile_count :
    (∀ e t : Int, isDynamic e = true →
      getPackOpResultTypeShape [e] [t] [0] [] = [kDynamic, t]) ∧
    (∀ e t : Int, isDynamic e = false → isDynamic t = true →
      getPackOpResultTypeShape [e] [t] [0] [] = [kDynamic, t]) ∧
    (∀ e t : Int, 0 ≤ e → 0 < t →
      getPackOpResultTypeShape [e] [t] [0] [] = [⌈(e : ℚ) / (t : ℚ)⌉, t]) ∧
    getPackOpResultTypeShape [10] [3] [0] [] = [4, 3] ∧
    getPackOpResultTypeShape [9] [3] [0] [] = [3, 3] := by
  refine ⟨?_, ?_, ?_, by decide, by decide⟩
  · intro e t he
    rw [eq_kDynamic_of_isDynamic he]
    simp [getPackOpResultTypeShape, packStepInt, isDynamic_kDynamic,
      interchange_nil]
  · intro e t he ht
    rw [eq_kDynamic_of_isDynamic ht]
    simp [getPackOpResultTypeShape, packStepInt, he, isDynamic_kDynamic,
      interchange_nil]
  · intro e t he ht
    have hde : isDynamic e = false := isDynamic_eq_false_of_nonneg he
    have hdt : isDynamic t = false :=
      isDynamic_eq_false_of_nonneg (le_of_lt ht)
    simp [getPackOpResultTypeShape, packStepInt, hde, hdt, interchange_nil,
      ceilDiv_eq_ceil he ht]

/-- Witness for C2 at extent 10 and tile size 3. -/
theorem C2_ceil_tile_count_witness :
    getPackOpResultTypeShape [10] [3] [0] [] = [⌈(10 : ℚ) / (3 : ℚ)⌉, 3] :=
  C2_ceil_tile_count.2.2.1 10 3 (by norm_num) (by norm_num)

/-- Claim C5: scatter verification accepts indices [5, 2] of i32, updates
[5, 4], original [8, 4] with dimension map [0], and rejects the same op
with updates [5, 6] whose extent 6 exceeds the original extent 4 at the
non-indexed trailing axis. -/
theorem C5_scatter_shape_contract :
    ScatterOp.verify scatterAccepted = true ∧
    ScatterOp.verify scatterRejected = false := by
  constructor <;> decide

/-- Claim C3: without a padding value, pack verification rejects any
statically non-divisible tiled dimension; with a padding value the result
is the common verifier plus the padding type check and divisibility is not
consulted; concretely [10] with tile 3 is rejected without padding and
accepted with one. -/
theorem C3_full_tile_guard :
    (∀ (op : PackOp) (d : Nat) (c : Int),
      op.paddingValue = none →
      d < op.inputShape.length →
      isDynamic ((op.inputShape[d]?).getD 0) = false →
      dimAndTileFind op.innerDimsPos op.mixedTiles (d : Int) =
        some (OpFoldResult.attr c) →
      ((op.inputShape[d]?).getD 0).tmod c ≠ 0 →
      PackOp.verify op = false) ∧
    (∀ (op : PackOp) (t : Ty), op.paddingValue = some t →
      PackOp.verify op =
        (commonVerifierPackAndUnPackOp op.inputShape op.outputShape
            op.innerDimsPos op.outerDimsPerm op.mixedTiles &&
          (t == op.inputElemType))) ∧
    PackOp.verify packNotDivisible = false ∧
    PackOp.verify packPadded = true := by
  refine ⟨?_, ?_, by decide, by decide⟩
  · intro op d c hpad hd hdyn hfind hmod
    have hant : areNotFullTiles op.inputShape op.innerDimsPos
        op.mixedTiles = true := by
      unfold areNotFullTiles
      rw [List.any_eq_true]
      refine ⟨d, List.mem_range.mpr hd, ?_⟩
      simp [hdyn, hfind, getConstantIntValue, hmod]
    unfold PackOp.verify
    cases hcv : commonVerifierPackAndUnPackOp op.inputShape op.outputShape
        op.innerDimsPos op.outerDimsPerm op.mixedTiles
    · simp
    · simp [hpad, hant]
  · intro op t hpad
    unfold PackOp.verify
    cases hcv : commonVerifierPackAndUnPackOp op.inputShape op.outputShape
        op.innerDimsPos op.outerDimsPerm op.mixedTiles
    · simp
    · simp [hpad]

/-- Witness for C3 obtained from its first conjunct at dimension 0 with
static extent 10 and constant tile 3. -/
theorem C3_full_tile_guard_witness :
    PackOp.verify packNotDivisible = false :=
  C3_full_tile_guard.1 packNotDivisible 0 3 rfl (by norm_num [packNotDivisible])
    (by decide) (by decide) (by decide)

/-- Counterexample for C7: an FFT op with a dynamic length attribute, no
inputs at all, and no outputs passes verification, so a verified FFT op
need not carry a scalar stage input nor two outputs. -/
theorem C7_fft_counterexample :
    FftOp.verify fftDynamicDegenerate = true ∧
    fftDynamicDegenerate.outputs.length ≠ 2 ∧
    fftDynamicDegenerate.inputs.length = 0 := by
  refine ⟨by decide, by decide, by decide⟩

/-- Claim C7 amended: every FFT op with a static length attribute that
passes verification carries a scalar first input and exactly two outputs. -/
theorem C7_fft_static_structure (op : FftOp)
    (hstatic : isDynamic op.fftLength = false)
    (h : FftOp.verify op = true) :
    1 ≤ op.inputs.length ∧
    ((op.inputs[0]?).getD dfltOperand).isScalar = true ∧
    op.outputs.length = 2 := by
  unfold FftOp.verify at h
  rw [hstatic] at h
  simp only [Bool.false_eq_true, if_false] at h
  split at h
  · exact absurd h (by simp)
  split at h
  · exact absurd h (by simp)
  split at h
  · exact absurd h (by simp)
  split at h
  · exact absurd h (by simp)
  rename_i h1 h2 h3 h4
  rw [Bool.or_eq_true] at h2
  push_neg at h2
  obtain ⟨h2a, h2b⟩ := h2
  have hlen : op.inputs.length ≠ 0 := by simpa using h2a
  exact ⟨by omega, by simpa using h2b, not_not.mp h4⟩

/-- Witness for C7 amended at a static length 4 with a scalar stage input
and two outputs. -/
theorem C7_fft_static_structure_witness :
    1 ≤ fftStaticGood.inputs.length ∧
    ((fftStaticGood.inputs[0]?).getD dfltOperand).isScalar = true ∧
    fftStaticGood.outputs.length = 2 :=
  C7_fft_static_structure fftStaticGood (by decide) (by decide)

/-- Counterexample for C8: two rank-1 outputs whose shapes differ only at
an axis where one extent is dynamic (so they are pointwise compatible in
the dynamic-tolerant sense) are rejected by sort verification. -/
theorem C8_sort_counterexample :
    SortOp.verify sortDynMismatch = false ∧
    (∀ o ∈ sortDynMismatch.outputs, o.shape.length = 1) ∧
    verifyCompatibleShape [kDynamic] [3] = true := by
  refine ⟨by decide, by decide, by decide⟩

/-- Claim C8 amended: sort verification compares output shapes by exact
equality of extent lists (a dynamic extent matches only a dynamic extent):
every op passing verification has all output shapes equal to the shape of
output 0. -/
theorem C8_sort_exact_shape_rule (op : SortOp)
    (h : SortOp.verify op = true) :
    ∀ o ∈ op.outputs, o.shape = ((op.outputs[0]?).getD dfltOperand).shape := by
  intro o ho
  have hall : ((List.range op.outputs.length).all fun index =>
      (((((op.outputs[index]?).getD dfltOperand).shape.length : Int) ==
        ((((op.outputs[0]?).getD dfltOperand).shape.length : Int))) &&
      (((op.outputs[index]?).getD dfltOperand).shape ==
        ((op.outputs[0]?).getD dfltOperand).shape) &&
      (((op.regionArgTypes[2 * index]?).getD Ty.index) ==
        ((op.outputs[index]?).getD dfltOperand).elemType) &&
      (((op.regionArgTypes[2 * index + 1]?).getD Ty.index) ==
        ((op.outputs[index]?).getD dfltOperand).elemType))) = true := by
    by_contra hc
    rw [Bool.not_eq_true] at hc
    simp [SortOp.verify, hc] at h
  obtain ⟨i, hilt, hio⟩ := List.mem_iff_getElem.mp ho
  have hi := List.all_eq_true.mp hall i (List.mem_range.mpr hilt)
  simp only [Bool.and_eq_true, beq_iff_eq] at hi
  have hsome : (op.outputs[i]?).getD dfltOperand = o := by
    rw [List.getElem?_eq_getElem hilt, Option.getD_some, hio]
  have hs := hi.1.1.2
  rw [hsome] at hs
  exact hs

/-- Witness for C8 amended at a sort with two outputs of the same shape. -/
theorem C8_sort_exact_shape_rule_witness :
    (OperandKind.shaped [3] Ty.f32).shape =
      ((sortEqualShapes.outputs[0]?).getD dfltOperand).shape :=
  C8_sort_exact_shape_rule sortEqualShapes (by decide)
    (OperandKind.shaped [3] Ty.f32) (by decide)

theorem verifyCompatibleShape_length {a b : List Int}
    (h : verifyCompatibleShape a b = true) : a.length = b.length := by
  unfold verifyCompatibleShape at h
  exact beq_iff_eq.mp ((Bool.and_eq_true _ _).mp h).1

/-- Claim C10: in the rank-2 Winograd input transform path the input bound
is enforced only on dimension 0; a static oversize dimension 0 is rejected,
while with static dimensions the dimension 1 branch can never fire, so an
op with oversize static dimension 1 is accepted exactly when its output is
pointwise compatible with the inputTileSize square. -/
theorem C10_winograd_rank2_dim0_bound :
    (∀ op : WinogradInputTransformOp,
      op.inputShape.length = 2 →
      isDynamic ((op.inputShape[0]?).getD 0) = false →
      op.getInputTileSize < (op.inputShape[0]?).getD 0 →
      WinogradInputTransformOp.verify op = false) ∧
    (∀ out : List Int,
      WinogradInputTransformOp.verify
          { winogradDim1Oversize with outputShape := out } = true ↔
        verifyCompatibleShape [6, 6] out = true) := by
  constructor
  · intro op h2 hdyn hgt
    have hd : decide ((op.inputShape[0]?).getD 0 > op.getInputTileSize)
        = true := decide_eq_true hgt
    unfold WinogradInputTransformOp.verify
    simp only [h2, hdyn, hd]
    norm_num
  · intro out
    have e1 : isDynamic 4 = false := by decide
    have e2 : isDynamic 100 = false := by decide
    have hv : WinogradInputTransformOp.verify
        { winogradDim1Oversize with outputShape := out } =
        if out.length = 2 then verifyCompatibleShape [6, 6] out
        else false := by
      unfold WinogradInputTransformOp.verify winogradDim1Oversize
      norm_num [WinogradInputTransformOp.getInputTileSize, e1, e2]
    rw [hv]
    by_cases hl : out.length = 2
    · simp [hl]
    · rw [if_neg hl]
      constructor
      · intro hfalse
        exact absurd hfalse (by simp)
      · intro hvcs
        exact absurd (by simpa using (verifyCompatibleShape_length hvcs).symm) hl

/-- Witness for C10 from its first conjunct: static dimension 0 extent 7
against input tile size 6 is rejected. -/
theorem C10_winograd_rank2_dim0_bound_witness :
    WinogradInputTransformOp.verify winogradDim0Oversize = false :=
  C10_winograd_rank2_dim0_bound.1 winogradDim0Oversize (by decide)
    (by decide) (by decide)

/-- Claim C6: the rank-4 channel-last Winograd input transform with kernel
size 3 and output tile size 4 on input [1, 10, 10, 3] accepts exactly the
declared output shapes pointwise compatible with [6, 6, 1, 2, 2, 3]. -/
theorem C6_winograd_input_rank4 :
    winogradInputExpectedShape [1, 10, 10, 3] [1, 2] 3 4 6 6 =
      [6, 6, 1, 2, 2, 3] ∧
    (∀ out : List Int,
      WinogradInputTransformOp.verify
          { inputShape := [1, 10, 10, 3], inputElemType := Ty.f32,
            outputShape := out, outputElemType := Ty.f32,
            outputTileSize := 4, kernelSize := 3,
            imageDimensions := [1, 2] } = true ↔
        verifyCompatibleShape [6, 6, 1, 2, 2, 3] out = true) := by
  have hexp : winogradInputExpectedShape [1, 10, 10, 3] [1, 2] 3 4 6 6 =
      [6, 6, 1, 2, 2, 3] := by decide
  have hch1 : (([1, 2] : List Int) == [2, 3]) = false := by decide
  have hch2 : (([1, 2] : List Int) == [1, 2]) = true := by decide
  refine ⟨hexp, ?_⟩
  intro out
  by_cases hl : out.length = 6
  · unfold WinogradInputTransformOp.verify
    norm_num [hl, WinogradInputTransformOp.getInputTileSize,
      WinogradInputTransformOp.isNchw, WinogradInputTransformOp.isNhwc,
      hch1, hch2, hexp]
  · have h1 : WinogradInputTransformOp.verify
        { inputShape := [1, 10, 10, 3], inputElemType := Ty.f32,
          outputShape := out, outputElemType := Ty.f32,
          outputTileSize := 4, kernelSize := 3,
          imageDimensions := [1, 2] } = false := by
      unfold WinogradInputTransformOp.verify
      norm_num [hl]
    rw [h1]
    constructor
    · intro hf
      exact absurd hf (by simp)
    · intro hvcs
      exact absurd (by simpa using (verifyCompatibleShape_length hvcs).symm) hl

/-- Witness for C6 at the exact expected output shape [6, 6, 1, 2, 2, 3]. -/
theorem C6_winograd_input_rank4_witness :
    WinogradInputTransformOp.verify
        { inputShape := [1, 10, 10, 3], inputElemType := Ty.f32,
          outputShape := [6, 6, 1, 2, 2, 3], outputElemType := Ty.f32,
          outputTileSize := 4, kernelSize := 3,
          imageDimensions := [1, 2] } = true :=
  (C6_winograd_input_rank4.2 [6, 6, 1, 2, 2, 3]).mpr (by decide)

/-- Claim C9: non-tiled attention verification forces the key and query
head extents at axis 2 to agree and the output element type to equal the
query element type; the [2, 8, 16] configuration is accepted and a key head
dimension 16 against query head dimension 32 is rejected. -/
theorem C9_attention_nontiled :
    (∀ op : AttentionOp, op.outputs.length = 1 →
      AttentionOp.verify op = true →
      ((op.getKeyType.shape[2]?).getD 0 =
        ((op.getQueryType.shape[2]?).getD 0)) ∧
      op.getOutputType.elemType = op.getQueryType.elemType) ∧
    AttentionOp.verify attentionAccepted = true ∧
    AttentionOp.verify attentionHeadMismatch = false := by
  refine ⟨?_, by decide, by decide⟩
  intro op h1 h
  simp only [AttentionOp.verify, h1] at h
  norm_num at h
  split at h
  · obtain ⟨d1, d2, d3, d4, d5, d6, d7, d8, d9, d10, d11, d12⟩ := h
    exact ⟨d12, d11⟩
  · obtain ⟨-, -, hb, -⟩ := h
    exact absurd hb (by simp)

/-- Witness for C9 from its first conjunct at the accepted [2, 8, 16]
configuration. -/
theorem C9_attention_nontiled_witness :
    ((attentionAccepted.getKeyType.shape[2]?).getD 0 =
      ((attentionAccepted.getQueryType.shape[2]?).getD 0)) ∧
    attentionAccepted.getOutputType.elemType =
      attentionAccepted.getQueryType.elemType :=
  C9_attention_nontiled.1 attentionAccepted rfl (by decide)

/-- Counterexample for C4: a pack of [9] by constant tile 3 with declared
packed shape [3, kDynamic] passes full verification although its trailing
tile axis is dynamic while the declared tile size is the constant 3. -/
theorem C4_tile_axes_counterexample :
    PackOp.verify packDynamicTrailing = true ∧
    isDynamic ((packDynamicTrailing.outputShape[1]?).getD 0) = true ∧
    getConstantIntValue ((packDynamicTrailing.mixedTiles[0]?).getD
      OpFoldResult.value) = some 3 := by
  refine ⟨by decide, by decide, by decide⟩

theorem commonVerifier_tile_axes
    (unpackedShape packedShape innerDimsPos outerDimsPerm : List Int)
    (mixedTiles : List OpFoldResult)
    (h : commonVerifierPackAndUnPackOp unpackedShape packedShape
        innerDimsPos outerDimsPerm mixedTiles = true) :
    ∀ p ∈ (packedShape.drop (packedShape.length - mixedTiles.length)).zip
        mixedTiles,
      (getConstantIntValue p.2 = none → isDynamic p.1 = true) ∧
      (∀ c, getConstantIntValue p.2 = some c → isDynamic p.1 = false →
        p.1 = c) := by
  intro p hp
  have hall : (((packedShape.drop (packedShape.length - mixedTiles.length)).zip
      mixedTiles).all innerTileConsistent) = true := by
    by_contra hc
    rw [Bool.not_eq_true] at hc
    simp [commonVerifierPackAndUnPackOp, hc] at h
  have hpc := List.all_eq_true.mp hall p hp
  unfold innerTileConsistent at hpc
  constructor
  · intro hnone
    rw [hnone] at hpc
    simpa using hpc
  · intro c hsome hdf
    rw [hsome] at hpc
    simp only [hdf] at hpc
    simpa using hpc

/-- Claim C4 amended: for every Pack or UnPack op passing verification,
each static trailing tile axis of the packed type equals the declared
constant tile size, and each dynamic declared tile size forces a dynamic
trailing axis; a trailing axis may however be dynamic even when the tile
size is a constant. -/
theorem C4_tile_axes_amended :
    (∀ op : PackOp, PackOp.verify op = true →
      ∀ p ∈ (op.outputShape.drop
          (op.outputShape.length - op.mixedTiles.length)).zip op.mixedTiles,
        (getConstantIntValue p.2 = none → isDynamic p.1 = true) ∧
        (∀ c, getConstantIntValue p.2 = some c → isDynamic p.1 = false →
          p.1 = c)) ∧
    (∀ op : UnPackOp, UnPackOp.verify op = true →
      ∀ p ∈ (op.inputShape.drop
          (op.inputShape.length - op.mixedTiles.length)).zip op.mixedTiles,
        (getConstantIntValue p.2 = none → isDynamic p.1 = true) ∧
        (∀ c, getConstantIntValue p.2 = some c → isDynamic p.1 = false →
          p.1 = c)) := by
  constructor
  · intro op h
    have hcv : commonVerifierPackAndUnPackOp op.inputShape op.outputShape
        op.innerDimsPos op.outerDimsPerm op.mixedTiles = true := by
      by_contra hc
      rw [Bool.not_eq_true] at hc
      simp [PackOp.verify, hc] at h
    exact commonVerifier_tile_axes _ _ _ _ _ hcv
  · intro op h
    exact commonVerifier_tile_axes _ _ _ _ _ h

/-- Witness for C4 amended: a dynamic declared tile size over [9] with
packed shape [5, kDynamic] passes verification and its trailing axis is
dynamic as the amended claim requires. -/
theorem C4_tile_axes_amended_witness : isDynamic kDynamic = true :=
  (C4_tile_axes_amended.1 packDynamicTile (by decide)
    (kDynamic, OpFoldResult.value) (by decide)).1 rfl

theorem set_getElem?_self {α : Type _} {l : List α} {i : Nat} {a : α}
    (h : l[i]? = some a) : l.set i a = l := by
  induction l generalizing i with
  | nil => simp at h
  | cons x xs ih =>
    cases i with
    | zero => simp_all
    | succ n =>
      simp only [List.getElem?_cons_succ] at h
      simp [ih h]

theorem interchange_map (f : α → β) (l : List α) (perm : List Int) :
    interchange (l.map f) perm = (interchange l perm).map f := by
  unfold interchange
  rw [List.enum_map, List.map_map, List.map_map]
  apply List.map_congr_left
  intro ia _
  cases ia with
  | mk i a =>
    simp only [Function.comp, Prod.map_apply, id_eq]
    cases hp : perm[i]? with
    | none => rfl
    | some p =>
      simp only [List.getElem?_map]
      exact Option.getD_map f a _

theorem affineCeilDiv_value_left (t : OpFoldResult) :
    affineCeilDiv OpFoldResult.value t = OpFoldResult.value := by
  cases t <;> rfl

/-- The int64 fold of getPackOpResultTypeShape tracks the symbolic fold of
PackOp::getResultShape exactly, preserving nonnegativity of every constant
entry, when the dimension positions are in range, the source constants are
nonnegative, and the constant tile sizes are positive. -/
theorem foldl_packStep_agree :
    ∀ (pairs : List (Int × OpFoldResult)) (dims : List OpFoldResult),
      (∀ p ∈ pairs, 0 ≤ p.1 ∧ p.1.toNat < dims.length) →
      (∀ p ∈ pairs, ∀ w, p.2 = OpFoldResult.attr w → 0 < w) →
      (∀ v, OpFoldResult.attr v ∈ dims → 0 ≤ v) →
      (pairs.map (Prod.map id dynOf)).foldl packStepInt (dims.map dynOf)
          = (pairs.foldl packStepOFR dims).map dynOf
        ∧ (∀ v, OpFoldResult.attr v ∈ pairs.foldl packStepOFR dims → 0 ≤ v)
        ∧ (pairs.foldl packStepOFR dims).length = dims.length := by
  intro pairs
  induction pairs with
  | nil =>
    intro dims h1 h2 h3
    exact ⟨rfl, h3, rfl⟩
  | cons p rest ih =>
    intro dims h1 h2 h3
    obtain ⟨pd, pt⟩ := p
    obtain ⟨hp0, hplt⟩ := h1 (pd, pt) (List.mem_cons_self _ _)
    have hget : dims[pd.toNat]? = some dims[pd.toNat] :=
      List.getElem?_eq_getElem hplt
    have hmema : dims[pd.toNat] ∈ dims := List.getElem_mem hplt
    have hstepOFR : packStepOFR dims (pd, pt) =
        dims.set pd.toNat (affineCeilDiv dims[pd.toNat] pt) := by
      simp only [packStepOFR]
      rw [hget]
      rfl
    have hstepInt : packStepInt (dims.map dynOf) (pd, dynOf pt) =
        if isDynamic (dynOf dims[pd.toNat]) then dims.map dynOf
        else if isDynamic (dynOf pt) then
          (dims.map dynOf).set pd.toNat kDynamic
        else (dims.map dynOf).set pd.toNat
          (ceilDiv (dynOf dims[pd.toNat]) (dynOf pt)) := by
      simp only [packStepInt]
      rw [List.getElem?_map, hget]
      rfl
    have hstep : packStepInt (dims.map dynOf) (pd, dynOf pt)
        = (packStepOFR dims (pd, pt)).map dynOf
      ∧ (∀ v, OpFoldResult.attr v ∈ packStepOFR dims (pd, pt) → 0 ≤ v) := by
      rw [hstepOFR, hstepInt]
      cases hda : dims[pd.toNat] with
      | value =>
        rw [affineCeilDiv_value_left]
        constructor
        · have hk : (dims.map dynOf)[pd.toNat]? = some kDynamic := by
            rw [List.getElem?_map, hget, hda]
            rfl
          have hc1 : isDynamic (dynOf OpFoldResult.value) = true :=
            isDynamic_kDynamic
          rw [if_pos hc1, List.map_set]
          exact (set_getElem?_self hk).symm
        · intro v hv
          rcases List.mem_or_eq_of_mem_set hv with hmem | heq
          · exact h3 v hmem
          · exact absurd heq (by simp)
      | attr a =>
        have ha0 : 0 ≤ a := h3 a (by rw [← hda]; exact hmema)
        have hca : ¬(isDynamic (dynOf (OpFoldResult.attr a)) = true) := by
          simp [dynOf, isDynamic_eq_false_of_nonneg ha0]
        cases pt with
        | value =>
          constructor
          · have hc1 : isDynamic (dynOf OpFoldResult.value) = true :=
              isDynamic_kDynamic
            rw [if_neg hca, if_pos hc1, List.map_set]
            rfl
          · intro v hv
            rcases List.mem_or_eq_of_mem_set hv with hmem | heq
            · exact h3 v hmem
            · exact absurd heq (by simp [affineCeilDiv])
        | attr w =>
          have hw : 0 < w :=
            h2 (pd, OpFoldResult.attr w) (List.mem_cons_self _ _) w rfl
          have hcw : ¬(isDynamic (dynOf (OpFoldResult.attr w)) = true) := by
            simp [dynOf, isDynamic_eq_false_of_nonneg (le_of_lt hw)]
          constructor
          · rw [if_neg hca, if_neg hcw, List.map_set]
            rfl
          · intro v hv
            rcases List.mem_or_eq_of_mem_set hv with hmem | heq
            · exact h3 v hmem
            · have hv2 : v = ceilDiv a w := by
                simpa [affineCeilDiv] using heq
              rw [hv2]
              exact ceilDiv_nonneg ha0 hw
    have hlen1 : (packStepOFR dims (pd, pt)).length = dims.length := by
      rw [hstepOFR]
      exact List.length_set _ _ _
    have hrest1 : ∀ q ∈ rest, 0 ≤ q.1 ∧
        q.1.toNat < (packStepOFR dims (pd, pt)).length := by
      rw [hlen1]
      exact fun q hq => h1 q (List.mem_cons_of_mem _ hq)
    have hrest2 : ∀ q ∈ rest, ∀ w, q.2 = OpFoldResult.attr w → 0 < w :=
      fun q hq => h2 q (List.mem_cons_of_mem _ hq)
    obtain ⟨ihA, ihB, ihC⟩ :=
      ih (packStepOFR dims (pd, pt)) hrest1 hrest2 hstep.2
    refine ⟨?_, ?_, ?_⟩
    · simp only [List.map_cons, List.foldl_cons, Prod.map_apply, id_eq]
      rw [hstep.1]
      exact ihA
    · simpa only [List.foldl_cons] using ihB
    · simp only [List.foldl_cons]
      rw [ihC, hlen1]

/-- The fix-up loop of PackOp::getResultShape projects back, under the
dynamic pattern, to exactly the int64 shape it was computed against. -/
theorem fixup_map_dynOf (pre : List OpFoldResult) :
    ((pre.zip (pre.map dynOf)).map
        (fun p => if isDynamic p.2 then OpFoldResult.value else p.1)).map
      dynOf = pre.map dynOf := by
  induction pre with
  | nil => rfl
  | cons a rest ih =>
    simp only [List.map_cons, List.zip_cons_cons]
    rw [ih]
    congr 1
    by_cases h : isDynamic (dynOf a) = true
    · rw [if_pos h]
      rw [eq_kDynamic_of_isDynamic h]
      rfl
    · rw [if_neg h]

/-- Claim C1: the symbolic reification path PackOp::getResultShape and the
verifier path PackOp::getPackedType (through getPackOpResultTypeShape)
produce the same static-or-dynamic pattern and the same static extents on
every axis, for in-range dimension positions, nonnegative constant source
extents, and positive constant tile sizes. -/
theorem C1_reification_matches_verifier
    (sourceDims innerTileSizes : List OpFoldResult)
    (innerDimsPos outerDimsPerm : List Int)
    (hpos : ∀ d ∈ innerDimsPos, 0 ≤ d ∧ d.toNat < sourceDims.length)
    (hsrc : ∀ v, OpFoldResult.attr v ∈ sourceDims → 0 ≤ v)
    (htile : ∀ t ∈ innerTileSizes, ∀ w, t = OpFoldResult.attr w → 0 < w) :
    asShapeWithAnyValueAsDynamic
        (PackOp.getResultShape sourceDims innerTileSizes innerDimsPos
          outerDimsPerm)
      = PackOp.getPackedType (asShapeWithAnyValueAsDynamic sourceDims)
          (asShapeWithAnyValueAsDynamic innerTileSizes) innerDimsPos
          outerDimsPerm := by
  have hcond1 : ∀ p ∈ innerDimsPos.zip innerTileSizes,
      0 ≤ p.1 ∧ p.1.toNat < sourceDims.length := by
    intro p hp
    obtain ⟨pa, pb⟩ := p
    exact hpos pa (List.of_mem_zip hp).1
  have hcond2 : ∀ p ∈ innerDimsPos.zip innerTileSizes,
      ∀ w, p.2 = OpFoldResult.attr w → 0 < w := by
    intro p hp
    obtain ⟨pa, pb⟩ := p
    exact htile pb (List.of_mem_zip hp).2
  obtain ⟨hfold, hattr, hlen⟩ :=
    foldl_packStep_agree (innerDimsPos.zip innerTileSizes) sourceDims
      hcond1 hcond2 hsrc
  have hzip : innerDimsPos.zip (innerTileSizes.map dynOf)
      = (innerDimsPos.zip innerTileSizes).map (Prod.map id dynOf) :=
    List.zip_map_right _ _ _
  have hrts : getPackOpResultTypeShape (sourceDims.map dynOf)
      (innerTileSizes.map dynOf) innerDimsPos outerDimsPerm
      = (((if outerDimsPerm.isEmpty then
            (innerDimsPos.zip innerTileSizes).foldl packStepOFR sourceDims
          else interchange
            ((innerDimsPos.zip innerTileSizes).foldl packStepOFR sourceDims)
            outerDimsPerm) ++ innerTileSizes).map dynOf) := by
    simp only [getPackOpResultTypeShape]
    rw [hzip, hfold, interchange_map]
    by_cases hperm : outerDimsPerm.isEmpty = true
    · have hnil : outerDimsPerm = [] := by
        simpa using hperm
      rw [if_pos hperm, hnil, interchange_nil, List.map_append]
    · rw [if_neg hperm, List.map_append]
  unfold PackOp.getResultShape PackOp.getPackedType
      asShapeWithAnyValueAsDynamic
  rw [hrts]
  exact fixup_map_dynOf _

/-- Witness for C1 at source dims (10, dynamic), tile 3 on dimension 0,
outer permutation (1 0). -/
theorem C1_reification_matches_verifier_witness :
    asShapeWithAnyValueAsDynamic
        (PackOp.getResultShape [OpFoldResult.attr 10, OpFoldResult.value]
          [OpFoldResult.attr 3] [0] [1, 0])
      = PackOp.getPackedType
          (asShapeWithAnyValueAsDynamic
            [OpFoldResult.attr 10, OpFoldResult.value])
          (asShapeWithAnyValueAsDynamic [OpFoldResult.attr 3]) [0] [1, 0] :=
  C1_reification_matches_verifier _ _ _ _ (by decide)
    (by
      intro v hv
      rw [List.mem_cons, List.mem_singleton] at hv
      rcases hv with h | h
      · injection h with h2
        omega
      · exact absurd h (by simp))
    (by
      intro t ht w hw
      simp only [List.mem_singleton] at ht
      rw [ht] at hw
      simp only [OpFoldResult.attr.injEq] at hw
      omega)

end LinalgExt
